import Mathlib

/-!
# Verification of the banner morphing-detection orchestrator (`agent.py`)

Shallow embedding of the orchestration pipeline of `agent.py`:
PDF image extraction, the morphing-detection tool's input handling and
error payloads, the markdown-fence stripping / brace-slicing JSON
recovery in `analyze_banner`, and the multi-image PDF aggregation.

Texts are modelled as `List Char` (`Str`).  Python string primitives
(`split`, `replace`, `find`, `rfind`, `strip`, `lower`, `endswith`,
slicing) are reimplemented with Python's semantics.  The external world
(file system, PyMuPDF, the remote vision model) is an explicit
environment `Env`; `json.loads` (a library function, not repository
code) is an abstract parameter `Loads` producing either a JSON value or
a decode-error message, and `json.dumps` is implemented for the one
dictionary shape the tool serializes.
-/

abbrev Str := List Char

/-- Convert a Lean string literal to the `List Char` text model. -/
def lit (s : String) : Str := s.data

/-- The backtick character (used by markdown fences). -/
def bq : Char := Char.ofNat 96

/-- The opening brace character. -/
def lbrace : Char := Char.ofNat 123

/-- The closing brace character. -/
def rbrace : Char := Char.ofNat 125

/-- The double-quote character. -/
def dquote : Char := Char.ofNat 34

/-- The backslash character. -/
def bslash : Char := Char.ofNat 92

/-- The path separator used by `os.path.join` (POSIX model). -/
def slashc : Char := Char.ofNat 47

/-- Index of the first occurrence of `sep` as a contiguous substring of `s`
(Python `s.find(sep)` restricted to a found result); `none` when absent. -/
def findSub (sep : Str) : Str → Option Nat
  | [] => if sep.isPrefixOf ([] : Str) then some 0 else none
  | c :: rest =>
    if sep.isPrefixOf (c :: rest) then some 0
    else (findSub sep rest).map (· + 1)

/-- Fuel-driven worker for Python `str.split(sep)` (non-empty `sep`):
repeatedly cut at the first occurrence of `sep`. -/
def pySplitAux (sep : Str) : Nat → Str → List Str
  | 0, s => [s]
  | fuel + 1, s =>
    match findSub sep s with
    | none => [s]
    | some i => s.take i :: pySplitAux sep fuel (s.drop (i + sep.length))

/-- Python `s.split(sep)` for non-empty `sep`.  `s.length` is enough fuel
because each cut removes at least one character. -/
def pySplit (sep s : Str) : List Str := pySplitAux sep s.length s

/-- Python list indexing as used after a guarded `split` (the guards in the
source ensure the index is in range; out of range would raise in Python). -/
def pyGet (l : List Str) (i : Nat) : Str := l.getD i []

/-- Python `s.replace(old, new)` for non-empty `old`. -/
def pyReplace (s old new : Str) : Str := List.intercalate new (pySplit old s)

/-- Characters removed by Python `str.strip()` (ASCII whitespace). -/
def isPySpace (c : Char) : Bool :=
  c = Char.ofNat 32 || c = Char.ofNat 9 || c = Char.ofNat 10 ||
  c = Char.ofNat 13 || c = Char.ofNat 11 || c = Char.ofNat 12

/-- Python `s.strip()`. -/
def pyStrip (s : Str) : Str :=
  ((s.dropWhile isPySpace).reverse.dropWhile isPySpace).reverse

/-- Python `s.lower()` (ASCII case folding; paths in this program are ASCII). -/
def pyLower (s : Str) : Str := s.map Char.toLower

/-- Python `s.endswith(suffix)`. -/
def pyEndsWith (s suffix : Str) : Bool := List.isSuffixOf suffix s

/-- Python `s.rfind(c)` for a single character, as an optional index. -/
def rfindChar (s : Str) (c : Char) : Option Nat :=
  (findSub [c] s.reverse).map (fun i => s.length - 1 - i)

/-- `os.path.basename` (POSIX): the part after the last slash. -/
def pyBasename (s : Str) : Str := (pySplit [slashc] s).getLast?.getD s

/-- Decimal rendering of a natural number (Python `str(n)` / f-string). -/
def natStr (n : Nat) : Str := (Nat.repr n).data

/-- JSON values as produced by `json.loads` / consumed by `json.dumps`.
Numbers are modelled as integers (the payloads this program handles carry
integer literals); objects are ordered key-value lists — Python dicts keep
insertion order, and dicts produced by `json.loads` have unique keys. -/
inductive JValue where
  | null : JValue
  | bool : Bool → JValue
  | num : Int → JValue
  | str : Str → JValue
  | arr : List JValue → JValue
  | obj : List (Str × JValue) → JValue
deriving Repr

/-- First binding of key `k` (objects from `json.loads` have unique keys,
so this is Python dict lookup). -/
def lookupField : List (Str × JValue) → Str → Option JValue
  | [], _ => none
  | (k', v) :: rest, k => if k' = k then some v else lookupField rest k

/-- Python `d.get(k)` on a JSON value.  Field access on a non-object would
raise `AttributeError` in Python; in this pipeline `.get` is only reached on
values that `json.loads` produced from a brace-led slice, which are objects,
so the non-object arm is unreachable and modelled as an absent key. -/
def jGet : JValue → Str → Option JValue
  | JValue.obj fields, k => lookupField fields k
  | _, _ => none

/-- Python `d.get(k, default)`. -/
def jGetD (v : JValue) (k : Str) (d : JValue) : JValue := (jGet v k).getD d

/-- Helper for `jSet`: replace the value at `k` in place, else append. -/
def setField : List (Str × JValue) → Str → JValue → List (Str × JValue)
  | [], k, v => [(k, v)]
  | (k', v') :: rest, k, v =>
    if k' = k then (k', v) :: rest else (k', v') :: setField rest k v

/-- Python `d[k] = v` on a dict (existing key keeps its position, a new key
is appended); item assignment on a non-dict is unreachable here. -/
def jSet : JValue → Str → JValue → JValue
  | JValue.obj fields, k, v => JValue.obj (setField fields k v)
  | other, _, _ => other

/-- Python truthiness of a JSON-decoded value. -/
def vTruthy : JValue → Bool
  | JValue.null => false
  | JValue.bool b => b
  | JValue.num n => n != 0
  | JValue.str s => !s.isEmpty
  | JValue.arr l => !l.isEmpty
  | JValue.obj f => !f.isEmpty

/-- Python truthiness of an optional lookup (`None` is falsy). -/
def jTruthyO : Option JValue → Bool
  | none => false
  | some v => vTruthy v

/-- One hex digit (lowercase), as emitted by `json.dumps` in `\uXXXX` escapes. -/
def hexDigit (n : Nat) : Char :=
  if n < 10 then Char.ofNat (48 + n) else Char.ofNat (87 + n)

/-- Four-digit lowercase hex rendering of `n < 0x10000`. -/
def toHex4 (n : Nat) : Str :=
  [hexDigit (n / 4096 % 16), hexDigit (n / 256 % 16),
   hexDigit (n / 16 % 16), hexDigit (n % 16)]

/-- Escape of one character inside a JSON string, per `json.dumps` defaults
(`ensure_ascii=True`): short escapes for the usual control characters,
`\uXXXX` for other controls and for non-ASCII (surrogate pairs above
the BMP), everything else verbatim. -/
def escapeChar (c : Char) : Str :=
  if c = dquote then [bslash, dquote]
  else if c = bslash then [bslash, bslash]
  else if c = Char.ofNat 10 then [bslash, Char.ofNat 110]
  else if c = Char.ofNat 9 then [bslash, Char.ofNat 116]
  else if c = Char.ofNat 13 then [bslash, Char.ofNat 114]
  else if c = Char.ofNat 8 then [bslash, Char.ofNat 98]
  else if c = Char.ofNat 12 then [bslash, Char.ofNat 102]
  else if c.toNat < 32 then [bslash, Char.ofNat 117] ++ toHex4 c.toNat
  else if c.toNat < 127 then [c]
  else if c.toNat < 65536 then [bslash, Char.ofNat 117] ++ toHex4 c.toNat
  else
    [bslash, Char.ofNat 117] ++ toHex4 (55296 + (c.toNat - 65536) / 1024) ++
    [bslash, Char.ofNat 117] ++ toHex4 (56320 + (c.toNat - 65536) % 1024)

/-- Body of a JSON string per `json.dumps`. -/
def escapeJson (s : Str) : Str := s.flatMap escapeChar

/-- `json.dumps({"error": msg, "is_morphed": None, "morphed_regions": []})` —
the only dictionary shape the tool serializes (its three error payloads). -/
def toolErrorOutput (msg : Str) : Str :=
  lbrace ::
    (lit "\"error\": \"" ++ escapeJson msg ++
     lit "\", \"is_morphed\": null, \"morphed_regions\": []") ++
  [rbrace]

/-- The JSON value `json.loads` recovers from `toolErrorOutput msg`. -/
def toolErrorValue (msg : Str) : JValue :=
  JValue.obj
    [(lit "error", JValue.str msg),
     (lit "is_morphed", JValue.null),
     (lit "morphed_regions", JValue.arr [])]

/-- Python f-string conversion of the (dynamically typed) resolved image
path.  An f-string of a `str` is that string itself — the only case the
program reaches with real `json.loads` output and the only case any theorem
below exercises; the container renderings are simplified placeholders for
Python's `str()` of non-string values. -/
def pyFormat : JValue → Str
  | JValue.str s => s
  | JValue.null => lit "None"
  | JValue.bool true => lit "True"
  | JValue.bool false => lit "False"
  | JValue.num n => (Int.repr n).data
  | JValue.arr _ => lit "[...]"
  | JValue.obj _ => lit "{...}"

/-- `json.loads`: an external library function, modelled abstractly as a
parser returning either a JSON value or the decode-error message `str(e)`. -/
abbrev Loads := Str → Except Str JValue

/-- Key constants of the result dictionaries built in `agent.py`. -/
def kSuccess : Str := lit "success"
def kResult : Str := lit "result"
def kError : Str := lit "error"
def kRawOutput : Str := lit "raw_output"
def kReasoning : Str := lit "reasoning_steps"
def kPdfPath : Str := lit "pdf_path"
def kImagesAnalyzed : Str := lit "images_analyzed"
def kMorphedImagesFound : Str := lit "morphed_images_found"
def kResults : Str := lit "results"
def kImageFile : Str := lit "image_file"
def kImagePath : Str := lit "image_path"
def kIsMorphed : Str := lit "is_morphed"

/-- Outcome of `open(path, "rb")` + read in the tool. -/
inductive ReadResult where
  | notFound : ReadResult
  | readFail : Str → ReadResult
  | ok : Str → ReadResult

/-- The external world: the file system as seen by the tool (keyed by the
dynamically typed resolved path), the remote vision model (base64 payload to
response text or API error), and PyMuPDF extraction (PDF path to pages of
embedded-image extensions, or an extraction error). -/
structure Env where
  read : JValue → ReadResult
  llm : Str → Except Str Str
  pdf : Str → Except Str (List (List Str))

/-- Lines 83–90 of `MorphingDetectionTool._run`: when the input string
(stripped) starts with a brace, try `json.loads`; if it yields a dict with
an `image_path` key, use that key's value as the path; on any failure
(decode error, non-dict, missing key) fall through to the raw string. -/
def resolveImagePath (jl : Loads) (image_path : Str) : JValue :=
  if (pyStrip image_path).head? = some lbrace then
    match jl image_path with
    | Except.ok (JValue.obj fields) =>
      match lookupField fields kImagePath with
      | some v => v
      | none => JValue.str image_path
    | _ => JValue.str image_path
  else JValue.str image_path

/-- `MorphingDetectionTool._run`: resolve the possibly JSON-wrapped input,
read and base64-encode the image (distinguishing `FileNotFoundError` from
other read failures), call the remote model, and return either its raw
response or a serialized error payload.  Base64 encoding is folded into
`Env.read`'s payload (the tool forwards the encoded bytes verbatim). -/
def MorphingDetectionTool_run (env : Env) (jl : Loads) (image_path : Str) : Str :=
  let p := resolveImagePath jl image_path
  match env.read p with
  | ReadResult.notFound =>
    toolErrorOutput (lit "Image file not found: " ++ pyFormat p)
  | ReadResult.readFail m =>
    toolErrorOutput (lit "Failed to read image: " ++ m)
  | ReadResult.ok data =>
    match env.llm data with
    | Except.error e => toolErrorOutput (lit "API call failed: " ++ e)
    | Except.ok content => content

/-- The markdown fence `"```"`. -/
def fence : Str := [bq, bq, bq]

/-- The tagged markdown fence `"```json"`. -/
def jsonFence : Str := fence ++ lit "json"

/-- Lines 530–533 of `analyze_banner`: if the output contains "```json",
keep what lies between the first "```json" and the following "```";
otherwise, if it contains "```", keep what lies between the first and
second "```"; otherwise leave it unchanged. -/
def stripFence (t : Str) : Str :=
  if (findSub jsonFence t).isSome then
    pyGet (pySplit fence (pyGet (pySplit jsonFence t) 1)) 0
  else if (findSub fence t).isSome then
    pyGet (pySplit fence (pyGet (pySplit fence t) 1)) 0
  else t

/-- Lines 536–539: if a `{` occurs, slice from the first `{` to one past
the last `}` (Python `rfind` returns `-1` when `}` is absent, making the
slice empty). -/
def jsonSlice (t : Str) : Option Str :=
  match findSub [lbrace] t with
  | none => none
  | some js =>
    let jsonEnd : Nat :=
      match rfindChar t rbrace with
      | some k => k + 1
      | none => 0
    some ((t.drop js).take (jsonEnd - js))

/-- `{"success": True, "result": v, "reasoning_steps": ...}`.  The
intermediate steps returned by the agent executor are opaque Python
objects; they are modelled as an empty list and touched by no theorem. -/
def successResult (v : JValue) : JValue :=
  JValue.obj
    [(kSuccess, JValue.bool true), (kResult, v), (kReasoning, JValue.arr [])]

/-- The "No JSON found in output" result; `raw_output` is the text *after*
fence stripping (the code reassigns `output_text` in place). -/
def noJsonResult (stripped : Str) : JValue :=
  JValue.obj
    [(kSuccess, JValue.bool false),
     (kError, JValue.str (lit "No JSON found in output")),
     (kRawOutput, JValue.str stripped)]

/-- The `json.JSONDecodeError` handler's result; `raw_output` here is
`result.get("output", "")`, i.e. the *original* agent output. -/
def parseFailedResult (msg original : Str) : JValue :=
  JValue.obj
    [(kSuccess, JValue.bool false),
     (kError, JValue.str (lit "JSON parsing failed: " ++ msg)),
     (kRawOutput, JValue.str original)]

/-- Lines 525–559 of `analyze_banner`: strip a markdown fence, slice
between the first `{` and the last `}`, and `json.loads` the slice. -/
def analyzeOutput (jl : Loads) (output : Str) : JValue :=
  let t := stripFence output
  match jsonSlice t with
  | none => noJsonResult t
  | some s =>
    match jl s with
    | Except.ok v => successResult v
    | Except.error m => parseFailedResult m output

/-- The image branch of `analyze_banner` (lines 513–559).  The ReAct agent
executor is modelled as invoking the tool on the file path and returning the
tool's output verbatim as `result["output"]`, which is what its prompt
instructs ("Return that JSON as your Final Answer without modification");
the remote model's behaviour is otherwise abstracted into `Env.llm`. -/
def analyzeImageBranch (env : Env) (jl : Loads) (file_path : Str) : JValue :=
  analyzeOutput jl (MorphingDetectionTool_run env jl file_path)

/-- `".pdf"`. -/
def dotPdf : Str := lit ".pdf"

/-- `"_images"`. -/
def underImages : Str := lit "_images"

/-- Line 477: the PDF branch is selected by `file_path.lower().endswith(".pdf")`. -/
def isPdfPath (file_path : Str) : Bool := pyEndsWith (pyLower file_path) dotPdf

/-- `extract_images_from_pdf` (lines 30–50): the output directory is the
input path with every occurrence of the case-sensitive substring ".pdf"
replaced by "_images", and each embedded image of page `p` (0-based) with
index `i` on its page becomes `output_dir/page(p+1)_img(i+1).ext`.  The
document is supplied by the environment as pages of image extensions (the
bytes written to disk do not influence any observable of this pipeline). -/
def extract_images_from_pdf (pages : List (List Str)) (pdf_path : Str) : List Str :=
  let output_dir := pyReplace pdf_path dotPdf underImages
  (pages.enum.map fun pe =>
    pe.2.enum.map fun ie =>
      output_dir ++ slashc ::
        (lit "page" ++ natStr (pe.1 + 1) ++ lit "_img" ++ natStr (ie.1 + 1) ++
         Char.ofNat 46 :: ie.2)).flatten

/-- Line 496: `sum(1 for r in all_results if r.get("success") and
r.get("result", {}).get("is_morphed"))` — Python truthiness on both. -/
def countMorphed (rs : List JValue) : Nat :=
  (rs.filter fun r =>
    jTruthyO (jGet r kSuccess) &&
    jTruthyO (jGet (jGetD r kResult (JValue.obj [])) kIsMorphed)).length

/-- The aggregate returned by a successful PDF branch (lines 498–504). -/
def pdfAggregate (pdf_path : Str) (images : List Str) (rs : List JValue) : JValue :=
  JValue.obj
    [(kSuccess, JValue.bool true),
     (kPdfPath, JValue.str pdf_path),
     (kImagesAnalyzed, JValue.num images.length),
     (kMorphedImagesFound, JValue.num (countMorphed rs)),
     (kResults, JValue.arr rs)]

/-- The `except` result of the PDF branch (lines 506–511). -/
def pdfErrorResult (e pdf_path : Str) : JValue :=
  JValue.obj
    [(kSuccess, JValue.bool false),
     (kError, JValue.str (lit "PDF processing failed: " ++ e)),
     (kPdfPath, JValue.str pdf_path)]

/-- `analyze_banner` (lines 465–559).  The PDF branch recursively analyzes
each extracted image with the full function; `fuel` bounds that recursion
depth (Python recurses unboundedly if an extracted path again ends in
".pdf", which cannot happen for a real extracted image: opening it as a PDF
fails; theorems always supply positive fuel).  Successful sub-results are
annotated in place with `image_file` before aggregation (lines 491–492). -/
def analyze_banner : Nat → Env → Loads → Str → JValue
  | 0, env, jl, file_path =>
    if isPdfPath file_path then JValue.null
    else analyzeImageBranch env jl file_path
  | fuel + 1, env, jl, file_path =>
    if isPdfPath file_path then
      match env.pdf file_path with
      | Except.error e => pdfErrorResult e file_path
      | Except.ok pages =>
        let images := extract_images_from_pdf pages file_path
        let all_results := images.map fun img =>
          let r := analyze_banner fuel env jl img
          if jTruthyO (jGet r kSuccess) then
            jSet r kImageFile (JValue.str (pyBasename img))
          else r
        pdfAggregate file_path images all_results
    else analyzeImageBranch env jl file_path

/-- One iteration of the PDF branch's loop (lines 488–493): analyze an
extracted image and, when it succeeded, record its base name. -/
def pdfSubResult (fuel : Nat) (env : Env) (jl : Loads) (img : Str) : JValue :=
  let r := analyze_banner fuel env jl img
  if jTruthyO (jGet r kSuccess) then
    jSet r kImageFile (JValue.str (pyBasename img))
  else r

/-- Modelled from the spec: the counting rule the specification states for
`morphed_images_found` — "the count of sub-results where `success=true` and
`result.is_morphed=true`" — with strict boolean equality, for comparison
with the code's truthiness-based `countMorphed`. -/
def spec_morphed_count (rs : List JValue) : Nat :=
  (rs.filter fun r =>
    (match jGet r kSuccess with
     | some (JValue.bool true) => true
     | _ => false) &&
    (match jGet (jGetD r kResult (JValue.obj [])) kIsMorphed with
     | some (JValue.bool true) => true
     | _ => false)).length

/-- Well-formedness of the abstract `json.loads`: parses that succeed in
this pipeline yield objects (the slice handed to `json.loads` is either
empty — a decode error — or starts with `{`, so a real parse can only
succeed with a dict). -/
def LoadsObj (jl : Loads) : Prop :=
  ∀ s v, jl s = Except.ok v → ∃ fields, v = JValue.obj fields

/-- `f"Image file not found: {image_path}"`. -/
def nfMsg (p : Str) : Str := lit "Image file not found: " ++ p

/-! ## Concrete environments and parsers used by the witnesses and
counterexamples below -/

def c4X : Str := lit "\n\x7b\"is_morphed\": false\x7d\n"

def c4jl : Loads := fun s =>
  if s = lit "\x7b\"is_morphed\": false\x7d" then
    Except.ok (JValue.obj [(kIsMorphed, JValue.bool false)])
  else Except.error []

def c5jl : Loads := fun s =>
  if s = lit "\x7b\"is_morphed\": false, \"morphed_regions\": []\x7d" then
    Except.ok (JValue.obj
      [(kIsMorphed, JValue.bool false), (lit "morphed_regions", JValue.arr [])])
  else Except.error []

def c1path : Str := lit "missing.jpg"

def c1env : Env :=
  ⟨fun _ => ReadResult.notFound, fun _ => Except.error [], fun _ => Except.error []⟩

def c1jl : Loads := fun s =>
  if s = toolErrorOutput (nfMsg c1path) then Except.ok (toolErrorValue (nfMsg c1path))
  else Except.error []

def c6env : Env :=
  ⟨fun _ => ReadResult.notFound, fun _ => Except.error [],
   fun q => if q = lit "scan.pdf" then Except.ok [[], []] else Except.error []⟩

def c7envNF : Env :=
  ⟨fun _ => ReadResult.notFound, fun _ => Except.error [], fun _ => Except.error []⟩

def c7envRF : Env :=
  ⟨fun _ => ReadResult.readFail (lit "Permission denied"),
   fun _ => Except.error [], fun _ => Except.error []⟩

def c7envAPI : Env :=
  ⟨fun _ => ReadResult.ok (lit "DATA"),
   fun _ => Except.error (lit "quota exceeded"), fun _ => Except.error []⟩

def c7envPDF : Env :=
  ⟨fun _ => ReadResult.notFound, fun _ => Except.error [],
   fun _ => Except.error (lit "cannot open document")⟩

def c8envE : Env :=
  ⟨fun _ => ReadResult.notFound, fun _ => Except.error [],
   fun _ => Except.error (lit "bad xref table")⟩

def c8env : Env :=
  ⟨fun v =>
    match v with
    | JValue.str s =>
      if s = lit "doc_images/page1_img1.png" then ReadResult.ok (lit "A")
      else if s = lit "doc_images/page1_img2.png" then ReadResult.ok (lit "B")
      else ReadResult.notFound
    | _ => ReadResult.notFound,
   fun d =>
    if d = lit "A" then Except.ok (lit "no verdict")
    else Except.ok (lit "\x7b\"is_morphed\": true\x7d"),
   fun q => if q = lit "doc.pdf" then Except.ok [[lit "png", lit "png"]]
    else Except.error []⟩

def c8jl : Loads := fun s =>
  if s = lit "\x7b\"is_morphed\": true\x7d" then
    Except.ok (JValue.obj [(kIsMorphed, JValue.bool true)])
  else Except.error []

def c9jl : Loads := fun s =>
  if s = lit "\x7b\"image_path\": \"scan1.png\"\x7d" then
    Except.ok (JValue.obj [(kImagePath, JValue.str (lit "scan1.png"))])
  else if s = lit "\x7b\"other\": 1\x7d" then
    Except.ok (JValue.obj [(lit "other", JValue.num 1)])
  else Except.error (lit "Expecting value")

def c9env : Env :=
  ⟨fun _ => ReadResult.notFound, fun _ => Except.error [], fun _ => Except.error []⟩

/-- The documented schema for `is_morphed`: boolean, null, or absent. -/
def schemaIsMorphed (r : JValue) : Prop :=
  match jGet (jGetD r kResult (JValue.obj [])) kIsMorphed with
  | none => True
  | some JValue.null => True
  | some (JValue.bool _) => True
  | _ => False

def c3env : Env :=
  ⟨fun v =>
    match v with
    | JValue.str s =>
      if s = lit "doc_images/page1_img1.png" then ReadResult.ok (lit "D")
      else ReadResult.notFound
    | _ => ReadResult.notFound,
   fun _ => Except.ok (lit "\x7b\"is_morphed\": 1\x7d"),
   fun q => if q = lit "doc.pdf" then Except.ok [[lit "png"]]
    else Except.error []⟩

def c3jl : Loads := fun s =>
  if s = lit "\x7b\"is_morphed\": 1\x7d" then
    Except.ok (JValue.obj [(kIsMorphed, JValue.num 1)])
  else Except.error []

/-! ## Properties of the Python string primitives -/

theorem findSub_nil_none (sep : Str) (hsep : sep ≠ []) : findSub sep [] = none := by
  simp only [findSub]
  rw [if_neg]
  intro hp
  exact hsep (List.prefix_nil.mp (List.isPrefixOf_iff_prefix.mp hp))

theorem findSub_some_ne_nil (sep s : Str) (i : Nat) (hsep : sep ≠ [])
    (h : findSub sep s = some i) : s ≠ [] := by
  intro hs
  subst hs
  rw [findSub_nil_none sep hsep] at h
  cases h

theorem findSub_isSome_iff_occurrence (sep s : Str) :
    (findSub sep s).isSome ↔ sep <:+: s := by
  induction s with
  | nil =>
    by_cases h : sep.isPrefixOf ([] : Str)
    · simp only [findSub, h, if_true, Option.isSome_some, true_iff]
      exact (List.isPrefixOf_iff_prefix.mp h).isInfix
    · simp only [findSub, h, if_false, Bool.false_eq_true, Option.isSome_none,
        false_iff, List.infix_nil]
      intro hs
      subst hs
      simp [List.isPrefixOf] at h
  | cons a l ih =>
    by_cases h : sep.isPrefixOf (a :: l)
    · simp only [findSub, h, if_true, Option.isSome_some, true_iff]
      exact (List.isPrefixOf_iff_prefix.mp h).isInfix
    · have hmap : (Option.map (· + 1) (findSub sep l)).isSome = (findSub sep l).isSome := by
        cases findSub sep l <;> rfl
      simp only [findSub, h, if_false, Bool.false_eq_true, hmap, ih,
        List.infix_cons_iff]
      constructor
      · exact Or.inr
      · rintro (hp | hi)
        · exact absurd (List.isPrefixOf_iff_prefix.mpr hp) h
        · exact hi

theorem findSub_none_iff_no_occurrence (sep s : Str) :
    findSub sep s = none ↔ ¬ sep <:+: s := by
  rw [← findSub_isSome_iff_occurrence, ← Option.not_isSome_iff_eq_none]

theorem findSub_none_of_head_notMem (c : Char) (cs s : Str) (h : c ∉ s) :
    findSub (c :: cs) s = none := by
  rw [findSub_none_iff_no_occurrence]
  intro hinf
  exact h (hinf.subset (List.mem_cons_self c cs))

theorem findSub_single_none_iff (c : Char) (s : Str) :
    findSub [c] s = none ↔ c ∉ s := by
  rw [findSub_none_iff_no_occurrence]
  constructor
  · intro h hc
    obtain ⟨p, q, rfl⟩ := List.append_of_mem hc
    exact h ⟨p, q, by simp⟩
  · intro h hinf
    exact h (hinf.subset (List.mem_cons_self c []))

theorem findSub_single_append (c : Char) (p r : Str) (h : c ∉ p) :
    findSub [c] (p ++ c :: r) = some p.length := by
  induction p with
  | nil =>
    simp only [List.nil_append, findSub]
    rw [if_pos (by simp [List.isPrefixOf])]
    rfl
  | cons a q ih =>
    have ha : a ≠ c := fun hac => h (hac ▸ List.mem_cons_self a q)
    have hq : c ∉ q := fun hc => h (List.mem_cons_of_mem a hc)
    simp only [List.cons_append, findSub]
    rw [if_neg (by simp [List.isPrefixOf]; intro hac; exact absurd hac.symm ha),
      show q.append (c :: r) = q ++ c :: r from rfl, ih hq]
    rfl

theorem findSub_take_first (sep s : Str) (i : Nat) (hsep : sep ≠ [])
    (h : findSub sep s = some i) :
    findSub sep (s.take i) = none := by
  induction s generalizing i with
  | nil =>
    rw [findSub_nil_none sep hsep] at h
    cases h
  | cons a l ih =>
    by_cases hp : sep.isPrefixOf (a :: l)
    · simp only [findSub, hp, if_true] at h
      obtain rfl : i = 0 := by injection h with h'; omega
      exact findSub_nil_none sep hsep
    · simp only [findSub, hp, if_false, Bool.false_eq_true,
        Option.map_eq_some'] at h
      obtain ⟨j, hj, rfl⟩ := h
      have htp : (a :: l.take j) <+: (a :: l) := by
        obtain ⟨t, ht⟩ := List.take_prefix j l
        exact ⟨t, by simp [ht]⟩
      simp only [List.take_succ_cons, findSub]
      rw [if_neg (fun hpre =>
        hp (List.isPrefixOf_iff_prefix.mpr
          ((List.isPrefixOf_iff_prefix.mp hpre).trans htp))), ih j hj]
      rfl

theorem pySplitAux_of_none (sep s : Str) (fuel : Nat)
    (h : findSub sep s = none) : pySplitAux sep fuel s = [s] := by
  cases fuel with
  | zero => rfl
  | succ n => simp [pySplitAux, h]

theorem pySplit_of_none (sep s : Str) (h : findSub sep s = none) :
    pySplit sep s = [s] := pySplitAux_of_none sep s s.length h

theorem pySplit_cons_of_some (sep s : Str) (i : Nat) (hsep : sep ≠ [])
    (h : findSub sep s = some i) :
    pySplit sep s =
      s.take i :: pySplitAux sep (s.length - 1) (s.drop (i + sep.length)) := by
  obtain ⟨n, hn⟩ : ∃ n, s.length = n + 1 := by
    cases s with
    | nil => exact absurd rfl (findSub_some_ne_nil sep [] i hsep h)
    | cons a l => exact ⟨l.length, rfl⟩
  rw [pySplit, hn]
  simp only [pySplitAux, h]
  have hn' : n + 1 - 1 = n := by omega
  rw [hn']

theorem pySplitAux_chars (sep : Str) (fuel : Nat) :
    ∀ s p, p ∈ pySplitAux sep fuel s → ∀ c, c ∈ p → c ∈ s := by
  induction fuel with
  | zero =>
    intro s p hp c hc
    simp only [pySplitAux, List.mem_singleton] at hp
    subst hp
    exact hc
  | succ n ih =>
    intro s p hp c hc
    cases hfs : findSub sep s with
    | none =>
      simp only [pySplitAux, hfs, List.mem_singleton] at hp
      subst hp
      exact hc
    | some i =>
      simp only [pySplitAux, hfs, List.mem_cons] at hp
      rcases hp with rfl | hp
      · exact List.take_subset i s hc
      · exact List.drop_subset _ s (ih _ _ hp c hc)

theorem pyGet_chars (l : List Str) (i : Nat) (c : Char)
    (h : c ∈ pyGet l i) : ∃ p ∈ l, c ∈ p := by
  by_cases hi : i < l.length
  · rw [pyGet, List.getD_eq_getElem?_getD, List.getElem?_eq_getElem hi] at h
    exact ⟨l[i], List.getElem_mem hi, h⟩
  · rw [pyGet, List.getD_eq_getElem?_getD, List.getElem?_eq_none (by omega)] at h
    simp at h

theorem stripFence_chars (t : Str) (c : Char) (h : c ∈ stripFence t) :
    c ∈ t := by
  unfold stripFence at h
  split at h
  · obtain ⟨p, hp, hcp⟩ := pyGet_chars _ _ _ h
    obtain ⟨q, hq, hcq⟩ := pyGet_chars _ _ _ (pySplitAux_chars _ _ _ _ hp c hcp)
    exact pySplitAux_chars _ _ _ _ hq c hcq
  · split at h
    · obtain ⟨p, hp, hcp⟩ := pyGet_chars _ _ _ h
      obtain ⟨q, hq, hcq⟩ := pyGet_chars _ _ _ (pySplitAux_chars _ _ _ _ hp c hcp)
      exact pySplitAux_chars _ _ _ _ hq c hcq
    · exact h

theorem jsonFence_none_of_fence_none (t : Str) (h : findSub fence t = none) :
    findSub jsonFence t = none := by
  rw [findSub_none_iff_no_occurrence] at h ⊢
  intro hs
  exact h ((List.prefix_append fence (lit "json")).isInfix.trans hs)

theorem stripFence_of_no_fence (t : Str) (h : findSub fence t = none) :
    stripFence t = t := by
  have h2 := jsonFence_none_of_fence_none t h
  unfold stripFence
  rw [if_neg (by simp [h2]), if_neg (by simp [h])]

theorem stripFence_of_bq_free (t : Str) (h : bq ∉ t) : stripFence t = t :=
  stripFence_of_no_fence t (findSub_none_of_head_notMem _ _ _ h)

theorem pySplit_head_no_fence (u : Str) :
    findSub fence (pyGet (pySplit fence u) 0) = none := by
  cases hfs : findSub fence u with
  | none =>
    rw [pySplit_of_none _ _ hfs]
    exact hfs
  | some i =>
    rw [pySplit_cons_of_some fence u i (by decide) hfs]
    simpa [pyGet] using findSub_take_first fence u i (by decide) hfs

theorem stripFence_idem (t : Str) : stripFence (stripFence t) = stripFence t := by
  have key : ∀ u, stripFence (pyGet (pySplit fence u) 0) = pyGet (pySplit fence u) 0 :=
    fun u => stripFence_of_no_fence _ (pySplit_head_no_fence u)
  by_cases h1 : (findSub jsonFence t).isSome
  · rw [show stripFence t = pyGet (pySplit fence (pyGet (pySplit jsonFence t) 1)) 0 from
      by unfold stripFence; rw [if_pos h1]]
    exact key _
  · by_cases h2 : (findSub fence t).isSome
    · rw [show stripFence t = pyGet (pySplit fence (pyGet (pySplit fence t) 1)) 0 from
        by unfold stripFence; rw [if_neg h1, if_pos h2]]
      exact key _
    · have ht : stripFence t = t := by unfold stripFence; rw [if_neg h1, if_neg h2]
      rw [ht, ht]

theorem findSub_self_append (sep r : Str) (hsep : sep ≠ []) :
    findSub sep (sep ++ r) = some 0 := by
  obtain ⟨c, cs, rfl⟩ : ∃ c cs, sep = c :: cs := by
    cases sep with
    | nil => exact absurd rfl hsep
    | cons c cs => exact ⟨c, cs, rfl⟩
  have hpre : (c :: cs).isPrefixOf ((c :: cs) ++ r) :=
    List.isPrefixOf_iff_prefix.mpr (List.prefix_append _ _)
  simp only [List.cons_append, findSub]
  rw [if_pos (by simp only [List.cons_append] at hpre; exact hpre)]

/-- No occurrence of a backtick-headed needle can start inside a
backtick-free prefix, so searching `X ++ tail` is searching `tail`,
shifted. -/
theorem findSub_bq_headed_append (nrest X tail : Str) (h : bq ∉ X) :
    findSub (bq :: nrest) (X ++ tail) =
      (findSub (bq :: nrest) tail).map (· + X.length) := by
  induction X with
  | nil =>
    simp only [List.nil_append]
    cases hf : findSub (bq :: nrest) tail <;> simp [hf]
  | cons a X ih =>
    have ha : a ≠ bq := fun hab => h (hab ▸ List.mem_cons_self a X)
    have hX : bq ∉ X := fun hc => h (List.mem_cons_of_mem a hc)
    simp only [List.cons_append, findSub]
    rw [if_neg (by
      simp only [List.isPrefixOf, List.cons_append]
      intro hpre
      simp only [Bool.and_eq_true, beq_iff_eq] at hpre
      exact ha hpre.1.symm)]
    rw [show X.append tail = X ++ tail from rfl, ih hX]
    cases hf : findSub (bq :: nrest) tail with
    | none => simp [hf]
    | some j => simp [hf]; omega

theorem findSub_jsonFence_body_fence (X : Str) (h : bq ∉ X) :
    findSub jsonFence (X ++ fence) = none := by
  rw [show jsonFence = bq :: (lit "``json") from by decide,
    findSub_bq_headed_append _ _ _ h,
    show findSub (bq :: lit "``json") fence = none from by decide]
  rfl

theorem findSub_fence_body_fence (X : Str) (h : bq ∉ X) :
    findSub fence (X ++ fence) = some X.length := by
  rw [show fence = bq :: [bq, bq] from rfl, findSub_bq_headed_append _ _ _ h,
    show findSub (bq :: [bq, bq]) ([bq, bq, bq] : Str) = some 0 from by decide]
  simp

/-- A response `"```json" ++ X ++ "```"` with a backtick-free body strips to
exactly the body. -/
theorem stripFence_wrap (X : Str) (h : bq ∉ X) :
    stripFence (jsonFence ++ X ++ fence) = X := by
  rw [List.append_assoc]
  have h1 : findSub jsonFence (jsonFence ++ (X ++ fence)) = some 0 :=
    findSub_self_append _ _ (by decide)
  have h2 : pySplit jsonFence (jsonFence ++ (X ++ fence)) = [[], X ++ fence] := by
    rw [pySplit_cons_of_some _ _ _ (by decide) h1]
    simp only [List.take_zero, Nat.zero_add]
    rw [List.drop_left, pySplitAux_of_none _ _ _ (findSub_jsonFence_body_fence X h)]
  have h3 : pySplit fence (X ++ fence) = [X, []] := by
    rw [pySplit_cons_of_some _ _ _ (by decide) (findSub_fence_body_fence X h)]
    rw [List.take_left]
    have hd : (X ++ fence).drop (X.length + fence.length) = [] := by
      rw [← List.drop_drop, List.drop_left]
      rfl
    rw [hd, pySplitAux_of_none _ _ _ (findSub_nil_none fence (by decide))]
  unfold stripFence
  rw [if_pos (by simp [h1]), h2]
  show pyGet (pySplit fence (X ++ fence)) 0 = X
  rw [h3]
  rfl

/-- Slicing a text that starts with `{` and ends with `}` returns the whole
text (first `{` at index 0, last `}` at the final index). -/
theorem jsonSlice_whole (ys : Str) :
    jsonSlice (lbrace :: ys ++ [rbrace]) = some (lbrace :: ys ++ [rbrace]) := by
  have h1 : findSub [lbrace] (lbrace :: ys ++ [rbrace]) = some 0 := by
    simp only [findSub]
    rw [if_pos (by simp [List.isPrefixOf])]
  have hrev : (lbrace :: ys ++ [rbrace]).reverse = rbrace :: (ys.reverse ++ [lbrace]) := by
    simp
  have h2 : findSub [rbrace] (lbrace :: ys ++ [rbrace]).reverse = some 0 := by
    rw [hrev]
    simp only [findSub]
    rw [if_pos (by simp [List.isPrefixOf])]
  simp only [jsonSlice, h1, rfindChar, h2, Option.map_some', Nat.sub_zero,
    List.drop_zero]
  have hlen : (lbrace :: ys ++ [rbrace]).length = ys.length + 2 := by simp
  have harith : (lbrace :: ys ++ [rbrace]).length - 1 + 1 =
      (lbrace :: ys ++ [rbrace]).length := by
    rw [hlen]
    omega
  rw [harith, List.take_length]

/-- Slicing prose-wrapped JSON: with no `{` in the leading prose and no `}`
in the trailing prose, the slice is exactly the braced body. -/
theorem jsonSlice_prose (p₁ mid p₂ : Str)
    (h1 : lbrace ∉ p₁) (h2 : rbrace ∉ p₂) :
    jsonSlice (p₁ ++ (lbrace :: (mid ++ [rbrace])) ++ p₂) =
      some (lbrace :: (mid ++ [rbrace])) := by
  have hfind : findSub [lbrace] (p₁ ++ (lbrace :: (mid ++ [rbrace])) ++ p₂) =
      some p₁.length := by
    rw [List.append_assoc]
    rw [show (lbrace :: (mid ++ [rbrace])) ++ p₂ = lbrace :: ((mid ++ [rbrace]) ++ p₂)
      from rfl]
    exact findSub_single_append lbrace p₁ _ h1
  have hrev : (p₁ ++ (lbrace :: (mid ++ [rbrace])) ++ p₂).reverse =
      p₂.reverse ++ (rbrace :: ((mid.reverse ++ [lbrace]) ++ p₁.reverse)) := by
    simp
  have hrfind : findSub [rbrace] (p₁ ++ (lbrace :: (mid ++ [rbrace])) ++ p₂).reverse =
      some p₂.length := by
    rw [hrev, findSub_single_append rbrace p₂.reverse _ (by simpa using h2)]
    simp
  have hlen : (p₁ ++ (lbrace :: (mid ++ [rbrace])) ++ p₂).length =
      p₁.length + (mid.length + 2) + p₂.length := by
    simp
    omega
  simp only [jsonSlice, hfind, rfindChar, hrfind, Option.map_some', hlen]
  have hdrop : (p₁ ++ (lbrace :: (mid ++ [rbrace])) ++ p₂).drop p₁.length =
      (lbrace :: (mid ++ [rbrace])) ++ p₂ := by
    rw [List.append_assoc, List.drop_left]
  rw [hdrop]
  have harith : p₁.length + (mid.length + 2) + p₂.length - 1 - p₂.length + 1 -
      p₁.length = (lbrace :: (mid ++ [rbrace])).length := by
    simp
    omega
  rw [harith, List.take_left]

/-! ## The serialized tool error payloads contain no markdown fence -/

theorem bq_notin_toHex4 (n : Nat) : bq ∉ toHex4 n := by
  have h16 : ∀ m, m < 16 → hexDigit m ≠ bq := by decide
  intro hm
  simp only [toHex4, List.mem_cons, List.not_mem_nil, or_false] at hm
  rcases hm with h | h | h | h <;>
    exact h16 _ (Nat.mod_lt _ (by norm_num)) h.symm

theorem bq_notin_escapeChar (c : Char) (hc : c ≠ bq) : bq ∉ escapeChar c := by
  intro hmem
  unfold escapeChar at hmem
  by_cases h1 : c = dquote
  · rw [if_pos h1] at hmem; exact absurd hmem (by decide)
  rw [if_neg h1] at hmem
  by_cases h2 : c = bslash
  · rw [if_pos h2] at hmem; exact absurd hmem (by decide)
  rw [if_neg h2] at hmem
  by_cases h3 : c = Char.ofNat 10
  · rw [if_pos h3] at hmem; exact absurd hmem (by decide)
  rw [if_neg h3] at hmem
  by_cases h4 : c = Char.ofNat 9
  · rw [if_pos h4] at hmem; exact absurd hmem (by decide)
  rw [if_neg h4] at hmem
  by_cases h5 : c = Char.ofNat 13
  · rw [if_pos h5] at hmem; exact absurd hmem (by decide)
  rw [if_neg h5] at hmem
  by_cases h6 : c = Char.ofNat 8
  · rw [if_pos h6] at hmem; exact absurd hmem (by decide)
  rw [if_neg h6] at hmem
  by_cases h7 : c = Char.ofNat 12
  · rw [if_pos h7] at hmem; exact absurd hmem (by decide)
  rw [if_neg h7] at hmem
  by_cases h8 : c.toNat < 32
  · rw [if_pos h8] at hmem
    rcases List.mem_append.mp hmem with hm | hm
    · exact absurd hm (by decide)
    · exact bq_notin_toHex4 _ hm
  rw [if_neg h8] at hmem
  by_cases h9 : c.toNat < 127
  · rw [if_pos h9] at hmem
    simp only [List.mem_singleton] at hmem
    exact hc hmem.symm
  rw [if_neg h9] at hmem
  by_cases h10 : c.toNat < 65536
  · rw [if_pos h10] at hmem
    rcases List.mem_append.mp hmem with hm | hm
    · exact absurd hm (by decide)
    · exact bq_notin_toHex4 _ hm
  rw [if_neg h10] at hmem
  simp only [List.append_assoc, List.mem_append] at hmem
  rcases hmem with hm | hm | hm | hm
  · exact absurd hm (by decide)
  · exact bq_notin_toHex4 _ hm
  · exact absurd hm (by decide)
  · exact bq_notin_toHex4 _ hm

theorem bq_notin_escapeJson (s : Str) (h : bq ∉ s) : bq ∉ escapeJson s := by
  intro hm
  rw [escapeJson] at hm
  obtain ⟨c, hc, hmem⟩ := List.mem_flatMap.mp hm
  exact bq_notin_escapeChar c (fun hcb => h (hcb ▸ hc)) hmem

theorem bq_notin_toolErrorOutput (msg : Str) (h : bq ∉ msg) :
    bq ∉ toolErrorOutput msg := by
  intro hm
  unfold toolErrorOutput at hm
  rcases List.mem_cons.mp hm with h1 | h1
  · exact absurd h1 (by decide)
  rcases List.mem_append.mp h1 with h2 | h2
  · rcases List.mem_append.mp h2 with h3 | h3
    · rcases List.mem_append.mp h3 with h4 | h4
      · exact absurd h4 (by decide)
      · exact bq_notin_escapeJson msg h h4
    · exact absurd h3 (by decide)
  · exact absurd h2 (by decide)

/-! ## Unfolding lemmas for the orchestrator -/

/-- Any path not selecting the PDF branch is analyzed by the image branch,
independently of the recursion fuel. -/
theorem analyze_banner_image (fuel : Nat) (env : Env) (jl : Loads) (p : Str)
    (h : isPdfPath p = false) :
    analyze_banner fuel env jl p = analyzeImageBranch env jl p := by
  cases fuel <;> simp [analyze_banner, h]

theorem analyze_banner_pdf_error (fuel : Nat) (env : Env) (jl : Loads)
    (p e : Str) (hp : isPdfPath p = true) (he : env.pdf p = Except.error e) :
    analyze_banner (fuel + 1) env jl p = pdfErrorResult e p := by
  simp [analyze_banner, hp, he]

theorem analyze_banner_pdf_ok (fuel : Nat) (env : Env) (jl : Loads)
    (p : Str) (pages : List (List Str))
    (hp : isPdfPath p = true) (ho : env.pdf p = Except.ok pages) :
    analyze_banner (fuel + 1) env jl p =
      pdfAggregate p (extract_images_from_pdf pages p)
        ((extract_images_from_pdf pages p).map (pdfSubResult fuel env jl)) := by
  simp only [analyze_banner, hp, if_true, ho]
  rfl

theorem resolveImagePath_plain (jl : Loads) (p : Str)
    (h : (pyStrip p).head? ≠ some lbrace) :
    resolveImagePath jl p = JValue.str p := by
  unfold resolveImagePath
  rw [if_neg h]

theorem toolRun_notFound (env : Env) (jl : Loads) (p : Str)
    (hplain : (pyStrip p).head? ≠ some lbrace)
    (hread : env.read (JValue.str p) = ReadResult.notFound) :
    MorphingDetectionTool_run env jl p = toolErrorOutput (nfMsg p) := by
  simp only [MorphingDetectionTool_run, resolveImagePath_plain jl p hplain, hread]
  rfl

/-- Parsing a fence-free payload of the shape `{...}` succeeds with whatever
`json.loads` yields on the whole payload. -/
theorem analyzeOutput_toolError (jl : Loads) (msg : Str) (v : JValue)
    (hbq : bq ∉ msg)
    (hjl : jl (toolErrorOutput msg) = Except.ok v) :
    analyzeOutput jl (toolErrorOutput msg) = successResult v := by
  have hsf : stripFence (toolErrorOutput msg) = toolErrorOutput msg :=
    stripFence_of_bq_free _ (bq_notin_toolErrorOutput msg hbq)
  have hslice : jsonSlice (toolErrorOutput msg) = some (toolErrorOutput msg) :=
    jsonSlice_whole _
  simp only [analyzeOutput, hsf, hslice, hjl]

theorem analyzeOutput_noJson (jl : Loads) (t : Str) (h : lbrace ∉ t) :
    analyzeOutput jl t = noJsonResult (stripFence t) := by
  have hstrip : lbrace ∉ stripFence t := fun hc => h (stripFence_chars t lbrace hc)
  have hslice : jsonSlice (stripFence t) = none := by
    unfold jsonSlice
    rw [findSub_none_of_head_notMem _ _ _ hstrip]
  simp only [analyzeOutput, hslice]

/-! ## Claim C2 -/

/-- C2 (amended): for every response text containing no `{`, `analyze_banner`
returns success `false`, error exactly "No JSON found in output", and
`raw_output` equal to the *fence-stripped* response text — which equals the
original text whenever the text contains no "```" (the original claim's
"raw_output = original text" holds only in that case, since the code
reassigns `output_text` in place before the brace check). -/
theorem c2_no_brace_amended (jl : Loads) (t : Str) (h : lbrace ∉ t) :
    analyzeOutput jl t = noJsonResult (stripFence t) ∧
    jGet (analyzeOutput jl t) kSuccess = some (JValue.bool false) ∧
    jGet (analyzeOutput jl t) kError =
      some (JValue.str (lit "No JSON found in output")) ∧
    jGet (analyzeOutput jl t) kRawOutput = some (JValue.str (stripFence t)) ∧
    (findSub fence t = none → stripFence t = t) := by
  have h0 := analyzeOutput_noJson jl t h
  refine ⟨h0, ?_, ?_, ?_, stripFence_of_no_fence t⟩ <;> rw [h0] <;> rfl

/-- C2 counterexample: a response with no `{` but containing "```" comes back
with `raw_output` equal to the stripped text, not the original text. -/
theorem c2_counterexample :
    jGet (analyzeOutput (fun _ => Except.error [])
        (lit "```no braces here``` tail")) kRawOutput =
      some (JValue.str (lit "no braces here")) ∧
    lit "no braces here" ≠ lit "```no braces here``` tail" := by
  constructor
  · rfl
  · decide

/-! ## Claim C4 -/

/-- C4: a response wrapped in a ```json fence (with a fence-free body) yields
the same extracted JSON slice as the bare body, parsing it succeeds
identically on both, and fence-stripping is idempotent (the idempotence holds
for *every* text, not just fenced ones). -/
theorem c4_fence_wrap_and_idempotent (jl : Loads) (X : Str) (h : bq ∉ X) :
    jsonSlice (stripFence (jsonFence ++ X ++ fence)) = jsonSlice (stripFence X) ∧
    (∀ s v, jsonSlice X = some s → jl s = Except.ok v →
      analyzeOutput jl (jsonFence ++ X ++ fence) = successResult v ∧
      analyzeOutput jl X = successResult v) ∧
    (∀ t, stripFence (stripFence t) = stripFence t) := by
  have hw := stripFence_wrap X h
  have hx := stripFence_of_bq_free X h
  refine ⟨by rw [hw, hx], ?_, stripFence_idem⟩
  intro s v hs hv
  constructor
  · simp only [analyzeOutput, hw, hs, hv]
  · simp only [analyzeOutput, hx, hs, hv]

theorem c4_fence_wrap_and_idempotent_witness :
    bq ∉ c4X ∧
    analyzeOutput c4jl (jsonFence ++ c4X ++ fence) =
      successResult (JValue.obj [(kIsMorphed, JValue.bool false)]) ∧
    analyzeOutput c4jl c4X =
      successResult (JValue.obj [(kIsMorphed, JValue.bool false)]) := by
  have h := (c4_fence_wrap_and_idempotent c4jl c4X (by decide)).2.1
    (lit "\x7b\"is_morphed\": false\x7d")
    (JValue.obj [(kIsMorphed, JValue.bool false)]) (by rfl) (by rfl)
  exact ⟨by decide, h.1, h.2⟩

/-! ## Claim C5 -/

/-- C5: a response consisting of a JSON object (first `{` … last `}`)
surrounded by extraneous prose — no `{` in the leading prose, no `}` in the
trailing prose, no backtick anywhere (else fence-stripping would fire) —
parses to success `true` with the object recovered from exactly the substring
between the first `{` and the last `}`. -/
theorem c5_prose_extraction (jl : Loads) (p₁ mid p₂ : Str) (v : JValue)
    (hb1 : bq ∉ p₁) (hb2 : bq ∉ mid) (hb3 : bq ∉ p₂)
    (h1 : lbrace ∉ p₁) (h2 : rbrace ∉ p₂)
    (hjl : jl (lbrace :: (mid ++ [rbrace])) = Except.ok v) :
    jsonSlice (p₁ ++ (lbrace :: (mid ++ [rbrace])) ++ p₂) =
      some (lbrace :: (mid ++ [rbrace])) ∧
    analyzeOutput jl (p₁ ++ (lbrace :: (mid ++ [rbrace])) ++ p₂) =
      successResult v := by
  have hbq : bq ∉ p₁ ++ (lbrace :: (mid ++ [rbrace])) ++ p₂ := by
    intro hm
    rcases List.mem_append.mp hm with hm | hm
    · rcases List.mem_append.mp hm with hm | hm
      · exact hb1 hm
      · rcases List.mem_cons.mp hm with hm | hm
        · exact absurd hm (by decide)
        · rcases List.mem_append.mp hm with hm | hm
          · exact hb2 hm
          · exact absurd hm (by decide)
    · exact hb3 hm
  have hstrip := stripFence_of_bq_free _ hbq
  have hslice := jsonSlice_prose p₁ mid p₂ h1 h2
  exact ⟨hslice, by simp only [analyzeOutput, hstrip, hslice, hjl]⟩

theorem c5_prose_extraction_witness :
    analyzeOutput c5jl
        (lit "Here is my verdict: " ++
          (lbrace :: (lit "\"is_morphed\": false, \"morphed_regions\": []" ++
            [rbrace])) ++ lit " -- all checks passed.") =
      successResult (JValue.obj
        [(kIsMorphed, JValue.bool false),
         (lit "morphed_regions", JValue.arr [])]) := by
  exact (c5_prose_extraction c5jl
    (lit "Here is my verdict: ")
    (lit "\"is_morphed\": false, \"morphed_regions\": []")
    (lit " -- all checks passed.")
    (JValue.obj
      [(kIsMorphed, JValue.bool false), (lit "morphed_regions", JValue.arr [])])
    (by decide) (by decide) (by decide) (by decide) (by decide) (by rfl)).2

/-! ## Claim C1 -/

/-- C1 (amended): for an image path that does not exist on disk — with the
agent relaying the tool's output verbatim and `json.loads` parsing the
serialized error payload back — the Image branch of `analyze_banner` returns
success `true` (not `false`), with a `result` field *present* and equal to
the tool's error object, whose `error` string contains the path.  The tool's
file-not-found payload is itself valid JSON, so the parsing layer cannot
distinguish it from a genuine verdict. -/
theorem c1_missing_image_amended (fuel : Nat) (env : Env) (jl : Loads) (p : Str)
    (hpdf : isPdfPath p = false)
    (hplain : (pyStrip p).head? ≠ some lbrace)
    (hread : env.read (JValue.str p) = ReadResult.notFound)
    (hbq : bq ∉ p)
    (hjl : jl (toolErrorOutput (nfMsg p)) = Except.ok (toolErrorValue (nfMsg p))) :
    analyze_banner fuel env jl p = successResult (toolErrorValue (nfMsg p)) ∧
    jGet (analyze_banner fuel env jl p) kSuccess = some (JValue.bool true) ∧
    jGet (analyze_banner fuel env jl p) kResult =
      some (toolErrorValue (nfMsg p)) ∧
    jGet (toolErrorValue (nfMsg p)) kError =
      some (JValue.str (lit "Image file not found: " ++ p)) := by
  have hbqm : bq ∉ nfMsg p := by
    intro hm
    rcases List.mem_append.mp hm with hm | hm
    · exact absurd hm (by decide)
    · exact hbq hm
  have h0 : analyze_banner fuel env jl p = successResult (toolErrorValue (nfMsg p)) := by
    rw [analyze_banner_image fuel env jl p hpdf]
    unfold analyzeImageBranch
    rw [toolRun_notFound env jl p hplain hread]
    exact analyzeOutput_toolError jl (nfMsg p) _ hbqm hjl
  refine ⟨h0, ?_, ?_, ?_⟩
  · rw [h0]; rfl
  · rw [h0]; rfl
  · rfl

set_option maxRecDepth 8000 in
/-- C1 counterexample: for the nonexistent path "missing.jpg", the Image
branch returns `success = true` and a present `result` field — refuting the
claim's `success:false` / `result` absent. -/
theorem c1_counterexample :
    jGet (analyze_banner 1 c1env c1jl c1path) kSuccess = some (JValue.bool true) ∧
    jGet (analyze_banner 1 c1env c1jl c1path) kResult =
      some (toolErrorValue (nfMsg c1path)) := by
  constructor
  · rfl
  · rfl

theorem c1_missing_image_amended_witness :
    analyze_banner 1 c1env c1jl c1path =
      successResult (toolErrorValue (nfMsg c1path)) :=
  (c1_missing_image_amended 1 c1env c1jl c1path (by decide)
    (by decide) rfl (by decide) (by rfl)).1

/-! ## Claim C6 -/

/-- C6: a PDF from which zero embedded images are extracted yields
`success: true`, `images_analyzed: 0`, `morphed_images_found: 0`,
`results: []`. -/
theorem c6_empty_pdf (fuel : Nat) (env : Env) (jl : Loads) (p : Str)
    (pages : List (List Str))
    (hp : isPdfPath p = true) (ho : env.pdf p = Except.ok pages)
    (hz : extract_images_from_pdf pages p = []) :
    analyze_banner (fuel + 1) env jl p =
      JValue.obj
        [(kSuccess, JValue.bool true),
         (kPdfPath, JValue.str p),
         (kImagesAnalyzed, JValue.num 0),
         (kMorphedImagesFound, JValue.num 0),
         (kResults, JValue.arr [])] := by
  rw [analyze_banner_pdf_ok fuel env jl p pages hp ho, hz]
  rfl

theorem c6_empty_pdf_witness :
    analyze_banner 1 c6env (fun _ => Except.error []) (lit "scan.pdf") =
      JValue.obj
        [(kSuccess, JValue.bool true),
         (kPdfPath, JValue.str (lit "scan.pdf")),
         (kImagesAnalyzed, JValue.num 0),
         (kMorphedImagesFound, JValue.num 0),
         (kResults, JValue.arr [])] :=
  c6_empty_pdf 0 c6env (fun _ => Except.error []) (lit "scan.pdf") [[], []]
    (by decide) (by rfl) (by rfl)

/-! ## Claim C7 -/

/-- C7: the five-class error taxonomy.  Each failure is converted at its
origin into a structured payload or result carrying a human-readable error
string: (1) file-not-found, (2) generic read failure — with (1) and (2)
distinguishable, (3) remote-call failure, (4) response-parse failure (the
structured result keeps the raw output), (5) PDF-extraction failure.  All
the modelled functions are total, so none of these conditions escapes the
orchestrator as an exception. -/
theorem c7_error_taxonomy
    (env1 env2 env3 env5 : Env) (jl jl4 : Loads) (fuel : Nat)
    (q m e d o s pe ex pp : Str)
    (hq : (pyStrip q).head? ≠ some lbrace)
    (h1 : env1.read (JValue.str q) = ReadResult.notFound)
    (h2 : env2.read (JValue.str q) = ReadResult.readFail m)
    (h3a : env3.read (JValue.str q) = ReadResult.ok d)
    (h3b : env3.llm d = Except.error e)
    (h4a : jsonSlice (stripFence o) = some s)
    (h4b : jl4 s = Except.error pe)
    (h5a : isPdfPath pp = true)
    (h5b : env5.pdf pp = Except.error ex) :
    MorphingDetectionTool_run env1 jl q =
      toolErrorOutput (lit "Image file not found: " ++ q) ∧
    MorphingDetectionTool_run env2 jl q =
      toolErrorOutput (lit "Failed to read image: " ++ m) ∧
    MorphingDetectionTool_run env3 jl q =
      toolErrorOutput (lit "API call failed: " ++ e) ∧
    lit "Image file not found: " ++ q ≠ lit "Failed to read image: " ++ m ∧
    analyzeOutput jl4 o = parseFailedResult pe o ∧
    analyze_banner (fuel + 1) env5 jl pp = pdfErrorResult ex pp := by
  refine ⟨?_, ?_, ?_, ?_, ?_, ?_⟩
  · exact toolRun_notFound env1 jl q hq h1
  · simp only [MorphingDetectionTool_run, resolveImagePath_plain jl q hq, h2]
  · simp only [MorphingDetectionTool_run, resolveImagePath_plain jl q hq, h3a, h3b]
  · intro hcontr
    have h := congrArg List.head? hcontr
    have h' : some 'I' = some 'F' := h
    exact absurd (Option.some.inj h') (by decide)
  · simp only [analyzeOutput, h4a, h4b]
  · exact analyze_banner_pdf_error fuel env5 jl pp ex h5a h5b

theorem c7_error_taxonomy_witness :
    MorphingDetectionTool_run c7envNF (fun _ => Except.error []) (lit "img.png") =
      toolErrorOutput (lit "Image file not found: " ++ lit "img.png") ∧
    MorphingDetectionTool_run c7envRF (fun _ => Except.error []) (lit "img.png") =
      toolErrorOutput (lit "Failed to read image: " ++ lit "Permission denied") ∧
    MorphingDetectionTool_run c7envAPI (fun _ => Except.error []) (lit "img.png") =
      toolErrorOutput (lit "API call failed: " ++ lit "quota exceeded") ∧
    lit "Image file not found: " ++ lit "img.png" ≠
      lit "Failed to read image: " ++ lit "Permission denied" ∧
    analyzeOutput (fun _ => Except.error (lit "Expecting value")) (lit "\x7b oops") =
      parseFailedResult (lit "Expecting value") (lit "\x7b oops") ∧
    analyze_banner 1 c7envPDF (fun _ => Except.error []) (lit "broken.pdf") =
      pdfErrorResult (lit "cannot open document") (lit "broken.pdf") :=
  c7_error_taxonomy c7envNF c7envRF c7envAPI c7envPDF
    (fun _ => Except.error []) (fun _ => Except.error (lit "Expecting value")) 0
    (lit "img.png") (lit "Permission denied") (lit "quota exceeded") (lit "DATA")
    (lit "\x7b oops") [] (lit "Expecting value") (lit "cannot open document")
    (lit "broken.pdf")
    (by decide) rfl rfl rfl rfl (by rfl) rfl (by decide) rfl

/-! ## Claim C8 -/

/-- C8: in the PDF branch, an extraction failure short-circuits to a
top-level `success: false` result, while with extraction succeeding the
aggregate's `results` list has exactly one entry per extracted image — each
entry being that image's (possibly failed) sub-analysis — so a failed
sub-analysis is kept in the list and does not stop the remaining images
from being analyzed. -/
theorem c8_pdf_partial_failure (fuel : Nat) (envE envO : Env) (jl : Loads)
    (pp ex : Str) (pages : List (List Str))
    (hp : isPdfPath pp = true)
    (he : envE.pdf pp = Except.error ex)
    (ho : envO.pdf pp = Except.ok pages) :
    analyze_banner (fuel + 1) envE jl pp = pdfErrorResult ex pp ∧
    jGet (analyze_banner (fuel + 1) envE jl pp) kSuccess =
      some (JValue.bool false) ∧
    analyze_banner (fuel + 1) envO jl pp =
      pdfAggregate pp (extract_images_from_pdf pages pp)
        ((extract_images_from_pdf pages pp).map (pdfSubResult fuel envO jl)) ∧
    jGet (analyze_banner (fuel + 1) envO jl pp) kResults =
      some (JValue.arr
        ((extract_images_from_pdf pages pp).map (pdfSubResult fuel envO jl))) := by
  have hE := analyze_banner_pdf_error fuel envE jl pp ex hp he
  have hO := analyze_banner_pdf_ok fuel envO jl pp pages hp ho
  refine ⟨hE, ?_, hO, ?_⟩
  · rw [hE]; rfl
  · rw [hO]; rfl

set_option maxRecDepth 8000 in
theorem c8_pdf_partial_failure_witness :
    (analyze_banner 1 c8envE c8jl (lit "doc.pdf") =
      pdfErrorResult (lit "bad xref table") (lit "doc.pdf") ∧
    jGet (analyze_banner 1 c8envE c8jl (lit "doc.pdf")) kSuccess =
      some (JValue.bool false) ∧
    analyze_banner 1 c8env c8jl (lit "doc.pdf") =
      pdfAggregate (lit "doc.pdf")
        (extract_images_from_pdf [[lit "png", lit "png"]] (lit "doc.pdf"))
        ((extract_images_from_pdf [[lit "png", lit "png"]] (lit "doc.pdf")).map
          (pdfSubResult 0 c8env c8jl)) ∧
    jGet (analyze_banner 1 c8env c8jl (lit "doc.pdf")) kResults =
      some (JValue.arr
        ((extract_images_from_pdf [[lit "png", lit "png"]] (lit "doc.pdf")).map
          (pdfSubResult 0 c8env c8jl)))) ∧
    jGet (analyze_banner 1 c8env c8jl (lit "doc.pdf")) kResults =
      some (JValue.arr
        [noJsonResult (lit "no verdict"),
         jSet (successResult (JValue.obj [(kIsMorphed, JValue.bool true)]))
           kImageFile (JValue.str (lit "page1_img2.png"))]) :=
  ⟨c8_pdf_partial_failure 0 c8envE c8env c8jl (lit "doc.pdf")
    (lit "bad xref table") [[lit "png", lit "png"]] (by decide) rfl rfl,
   by rfl⟩

/-! ## Claim C9 -/

/-- C9: `MorphingDetectionTool._run` input handling.  When the (stripped)
tool input starts with `{` and `json.loads` yields a dict containing an
`image_path` key, the key's value replaces the raw input as the path (and
the file read then happens on that value); when the parse fails, when the
key is absent, or when the input does not start with `{`, the raw input
string is used unchanged. -/
theorem c9_json_wrapped_input (jl : Loads) (raw1 raw2 raw3 raw4 : Str)
    (fields1 fields3 : List (Str × JValue)) (v : JValue) (m : Str) (env : Env)
    (h1s : (pyStrip raw1).head? = some lbrace)
    (h1p : jl raw1 = Except.ok (JValue.obj fields1))
    (h1f : lookupField fields1 kImagePath = some v)
    (h2s : (pyStrip raw2).head? = some lbrace)
    (h2p : jl raw2 = Except.error m)
    (h3s : (pyStrip raw3).head? = some lbrace)
    (h3p : jl raw3 = Except.ok (JValue.obj fields3))
    (h3f : lookupField fields3 kImagePath = none)
    (h4s : (pyStrip raw4).head? ≠ some lbrace)
    (hread : env.read v = ReadResult.notFound) :
    resolveImagePath jl raw1 = v ∧
    resolveImagePath jl raw2 = JValue.str raw2 ∧
    resolveImagePath jl raw3 = JValue.str raw3 ∧
    resolveImagePath jl raw4 = JValue.str raw4 ∧
    MorphingDetectionTool_run env jl raw1 =
      toolErrorOutput (lit "Image file not found: " ++ pyFormat v) := by
  have hr1 : resolveImagePath jl raw1 = v := by
    simp only [resolveImagePath, h1s, if_true, h1p, h1f]
  refine ⟨hr1, ?_, ?_, ?_, ?_⟩
  · simp only [resolveImagePath, h2s, if_true, h2p]
  · simp only [resolveImagePath, h3s, if_true, h3p, h3f]
  · simp only [resolveImagePath, if_neg h4s]
  · simp only [MorphingDetectionTool_run, hr1, hread]

theorem c9_json_wrapped_input_witness :
    resolveImagePath c9jl (lit "\x7b\"image_path\": \"scan1.png\"\x7d") =
      JValue.str (lit "scan1.png") ∧
    resolveImagePath c9jl (lit "\x7bnot json") =
      JValue.str (lit "\x7bnot json") ∧
    resolveImagePath c9jl (lit "\x7b\"other\": 1\x7d") =
      JValue.str (lit "\x7b\"other\": 1\x7d") ∧
    resolveImagePath c9jl (lit "plain.jpg") = JValue.str (lit "plain.jpg") ∧
    MorphingDetectionTool_run c9env c9jl (lit "\x7b\"image_path\": \"scan1.png\"\x7d") =
      toolErrorOutput (lit "Image file not found: " ++
        pyFormat (JValue.str (lit "scan1.png"))) :=
  c9_json_wrapped_input c9jl
    (lit "\x7b\"image_path\": \"scan1.png\"\x7d") (lit "\x7bnot json")
    (lit "\x7b\"other\": 1\x7d") (lit "plain.jpg")
    [(kImagePath, JValue.str (lit "scan1.png"))] [(lit "other", JValue.num 1)]
    (JValue.str (lit "scan1.png")) (lit "Expecting value") c9env
    (by decide) (by rfl) (by rfl) (by decide) (by rfl) (by decide) (by rfl)
    (by rfl) (by decide) rfl

/-! ## Claim C10 -/

/-- C10 counterexample: "doc.pdf.PDF" ends in uppercase ".PDF" and selects
the PDF branch, but its derived output directory is "doc_images.PDF" — not
the input path itself, because the case-sensitive `.replace(".pdf", ...)`
still fires on the embedded lowercase ".pdf". -/
theorem c10_counterexample :
    isPdfPath (lit "doc.pdf.PDF") = true ∧
    pyReplace (lit "doc.pdf.PDF") dotPdf underImages = lit "doc_images.PDF" ∧
    lit "doc_images.PDF" ≠ lit "doc.pdf.PDF" := by
  refine ⟨by decide, by decide, by decide⟩

/-- C10 (amended): branch selection is case-insensitive (any path whose
lowercased form ends in ".pdf", in particular one ending in ".PDF", selects
the PDF branch), while the output directory replaces only the
case-sensitive ".pdf"; hence for every path ending in ".PDF" that contains
*no occurrence of lowercase ".pdf"*, the derived output directory string
equals the input path itself. -/
theorem c10_upper_pdf_amended (p : Str)
    (h1 : pyEndsWith p (lit ".PDF") = true)
    (h2 : findSub dotPdf p = none) :
    isPdfPath p = true ∧
    pyReplace p dotPdf underImages = p := by
  constructor
  · obtain ⟨t, ht⟩ : lit ".PDF" <:+ p := List.isSuffixOf_iff_suffix.mp h1
    unfold isPdfPath pyEndsWith pyLower
    rw [← ht, List.map_append]
    rw [List.isSuffixOf_iff_suffix]
    exact ⟨t.map Char.toLower,
      by rw [show (lit ".PDF").map Char.toLower = dotPdf from by decide]⟩
  · unfold pyReplace
    rw [pySplit_of_none _ _ h2]
    simp [List.intercalate]

theorem c10_upper_pdf_amended_witness :
    isPdfPath (lit "REPORT.PDF") = true ∧
    pyReplace (lit "REPORT.PDF") dotPdf underImages = lit "REPORT.PDF" :=
  c10_upper_pdf_amended (lit "REPORT.PDF") (by decide) (by decide)

/-! ## Claim C3 -/

theorem countMorphed_eq_spec (rs : List JValue) :
    (∀ r ∈ rs, ∃ b, jGet r kSuccess = some (JValue.bool b)) →
    (∀ r ∈ rs, schemaIsMorphed r) →
    countMorphed rs = spec_morphed_count rs := by
  induction rs with
  | nil => intro _ _; rfl
  | cons r rs ih =>
    intro hS hM
    have hih := ih (fun x hx => hS x (List.mem_cons_of_mem r hx))
      (fun x hx => hM x (List.mem_cons_of_mem r hx))
    obtain ⟨b, hb⟩ := hS r (List.mem_cons_self r rs)
    have hMr := hM r (List.mem_cons_self r rs)
    have hpred :
        (jTruthyO (jGet r kSuccess) &&
          jTruthyO (jGet (jGetD r kResult (JValue.obj [])) kIsMorphed)) =
        ((match jGet r kSuccess with
          | some (JValue.bool true) => true
          | _ => false) &&
         (match jGet (jGetD r kResult (JValue.obj [])) kIsMorphed with
          | some (JValue.bool true) => true
          | _ => false)) := by
      rw [hb]
      unfold schemaIsMorphed at hMr
      cases him : jGet (jGetD r kResult (JValue.obj [])) kIsMorphed with
      | none => cases b <;> rfl
      | some w =>
        rw [him] at hMr
        cases w with
        | null => cases b <;> rfl
        | bool b2 => cases b <;> cases b2 <;> rfl
        | num n => exact hMr.elim
        | str s => exact hMr.elim
        | arr a => exact hMr.elim
        | obj f => exact hMr.elim
    simp only [countMorphed, spec_morphed_count, List.filter_cons]
    rw [hpred]
    split
    · simp only [List.length_cons]
      exact congrArg (· + 1) hih
    · exact hih

theorem lookupField_setField_ne (fields : List (Str × JValue)) (k1 k2 : Str)
    (v : JValue) (h : k1 ≠ k2) :
    lookupField (setField fields k1 v) k2 = lookupField fields k2 := by
  induction fields with
  | nil => simp [setField, lookupField, h]
  | cons f rest ih =>
    obtain ⟨fk, fv⟩ := f
    by_cases hk : fk = k1
    · subst hk
      simp only [setField, if_pos rfl, lookupField]
      rw [if_neg h, if_neg h]
    · simp only [setField, if_neg hk, lookupField, ih]

/-- Every `result` value carried by a sub-analysis of `analyze_banner` is a
JSON object, provided the abstract parser only succeeds with objects (as the
real `json.loads` does on the brace-led slices this pipeline hands it).
This is what keeps Python's `r.get("result", {}).get("is_morphed")` from
raising during aggregation. -/
theorem analyze_banner_result_obj (env : Env) (jl : Loads) (hwf : LoadsObj jl) :
    ∀ (fuel : Nat) (q : Str) (w : JValue),
      jGet (analyze_banner fuel env jl q) kResult = some w →
      ∃ fields, w = JValue.obj fields := by
  have himg : ∀ (q : Str) (w : JValue),
      jGet (analyzeImageBranch env jl q) kResult = some w →
      ∃ fields, w = JValue.obj fields := by
    intro q w h
    simp only [analyzeImageBranch, analyzeOutput] at h
    cases hs : jsonSlice (stripFence (MorphingDetectionTool_run env jl q)) with
    | none =>
      rw [hs] at h
      dsimp only at h
      rw [show ∀ x, jGet (noJsonResult x) kResult = none from fun x => rfl] at h
      cases h
    | some s =>
      rw [hs] at h
      dsimp only at h
      cases hjl : jl s with
      | error m =>
        rw [hjl] at h
        rw [show ∀ x y, jGet (parseFailedResult x y) kResult = none from
          fun x y => rfl] at h
        cases h
      | ok v =>
        rw [hjl] at h
        have hv : jGet (successResult v) kResult = some v := rfl
        rw [hv] at h
        obtain rfl : v = w := Option.some.inj h
        exact hwf s v hjl
  intro fuel q w h
  cases fuel with
  | zero =>
    by_cases hp : isPdfPath q
    · simp only [analyze_banner, hp, if_true] at h
      cases h
    · simp only [analyze_banner, hp, if_false, Bool.false_eq_true] at h
      exact himg q w h
  | succ n =>
    by_cases hp : isPdfPath q
    · simp only [analyze_banner, hp, if_true] at h
      cases he : env.pdf q with
      | error e =>
        rw [he] at h
        rw [show ∀ x y, jGet (pdfErrorResult x y) kResult = none from
          fun x y => rfl] at h
        cases h
      | ok pages =>
        rw [he] at h
        rw [show ∀ x y z, jGet (pdfAggregate x y z) kResult = none from
          fun x y z => rfl] at h
        cases h
    · simp only [analyze_banner, hp, if_false, Bool.false_eq_true] at h
      exact himg q w h

/-- C3 (amended): `morphed_images_found` equals the number of sub-results
whose `success` is truthy *and* whose `result.is_morphed` is truthy (Python
truthiness, via `r.get("success") and r.get("result", {}).get("is_morphed")`).
Under the documented schema — `is_morphed` boolean, null, or absent — this
coincides with the claimed count of sub-results with `success = true` and
`is_morphed = true`; and a sub-result with `success = false` is never
counted.  The truthiness coincidence fails outside the schema (see the
counterexample with `is_morphed: 1`).  Every `result` value in the
aggregate is an object, so the counting expression is well-defined. -/
theorem c3_morphed_count_amended (fuel : Nat) (env : Env) (jl : Loads) (p : Str)
    (pages : List (List Str)) (hwf : LoadsObj jl)
    (hp : isPdfPath p = true) (ho : env.pdf p = Except.ok pages) :
    jGet (analyze_banner (fuel + 1) env jl p) kMorphedImagesFound =
      some (JValue.num (countMorphed
        ((extract_images_from_pdf pages p).map (pdfSubResult fuel env jl)))) ∧
    (∀ rs : List JValue,
      (∀ r ∈ rs, ∃ b, jGet r kSuccess = some (JValue.bool b)) →
      (∀ r ∈ rs, schemaIsMorphed r) →
      countMorphed rs = spec_morphed_count rs) ∧
    (∀ (r : JValue) (rs1 rs2 : List JValue),
      jGet r kSuccess = some (JValue.bool false) →
      countMorphed (rs1 ++ r :: rs2) = countMorphed (rs1 ++ rs2)) ∧
    (∀ (img : Str) (w : JValue),
      jGet (pdfSubResult fuel env jl img) kResult = some w →
      ∃ fields, w = JValue.obj fields) := by
  refine ⟨?_, countMorphed_eq_spec, ?_, ?_⟩
  · rw [analyze_banner_pdf_ok fuel env jl p pages hp ho]
    rfl
  · intro r rs1 rs2 h
    simp [countMorphed, List.filter_append, List.filter_cons, h, jTruthyO,
      vTruthy]
  · intro img w h
    unfold pdfSubResult at h
    by_cases ht : jTruthyO (jGet (analyze_banner fuel env jl img) kSuccess)
    · rw [if_pos ht] at h
      cases hr : analyze_banner fuel env jl img with
      | obj fields =>
        rw [hr] at h
        have : jGet (jSet (JValue.obj fields) kImageFile
            (JValue.str (pyBasename img))) kResult =
            jGet (JValue.obj fields) kResult := by
          simp only [jSet, jGet]
          exact lookupField_setField_ne fields kImageFile kResult
            (JValue.str (pyBasename img)) (by decide)
        rw [this, ← hr] at h
        exact analyze_banner_result_obj env jl hwf fuel img w h
      | null => rw [hr] at h; cases h
      | bool b => rw [hr] at h; cases h
      | num n => rw [hr] at h; cases h
      | str s => rw [hr] at h; cases h
      | arr a => rw [hr] at h; cases h
    · rw [if_neg ht] at h
      exact analyze_banner_result_obj env jl hwf fuel img w h

theorem c3jl_obj : LoadsObj c3jl := by
  intro s v h
  unfold c3jl at h
  split at h
  · exact ⟨_, (Except.ok.inj h).symm⟩
  · cases h

set_option maxRecDepth 8000 in
/-- C3 counterexample: a one-image PDF whose analysis comes back with
`is_morphed: 1` (a truthy non-boolean).  The code counts it —
`morphed_images_found = 1` — while the number of sub-results with
`success = true` and `result.is_morphed = true` is `0`, refuting the claimed
equality. -/
theorem c3_counterexample :
    jGet (analyze_banner 1 c3env c3jl (lit "doc.pdf")) kMorphedImagesFound =
      some (JValue.num 1) ∧
    (match jGet (analyze_banner 1 c3env c3jl (lit "doc.pdf")) kResults with
     | some (JValue.arr rs) => spec_morphed_count rs
     | _ => 37) = 0 := by
  constructor
  · rfl
  · rfl

set_option maxRecDepth 8000 in
theorem c3_morphed_count_amended_witness :
    jGet (analyze_banner 1 c3env c3jl (lit "doc.pdf")) kMorphedImagesFound =
      some (JValue.num (countMorphed
        ((extract_images_from_pdf [[lit "png"]] (lit "doc.pdf")).map
          (pdfSubResult 0 c3env c3jl)))) ∧
    countMorphed [] = spec_morphed_count [] :=
  ⟨(c3_morphed_count_amended 0 c3env c3jl (lit "doc.pdf") [[lit "png"]]
      c3jl_obj (by decide) rfl).1,
   (c3_morphed_count_amended 0 c3env c3jl (lit "doc.pdf") [[lit "png"]]
      c3jl_obj (by decide) rfl).2.1 [] (fun r hr => absurd hr (List.not_mem_nil r))
      (fun r hr => absurd hr (List.not_mem_nil r))⟩

theorem c2_no_brace_amended_witness :
    analyzeOutput (fun _ => Except.error []) (lit "I found no verdict.") =
      noJsonResult (stripFence (lit "I found no verdict.")) ∧
    jGet (analyzeOutput (fun _ => Except.error []) (lit "I found no verdict."))
        kSuccess = some (JValue.bool false) ∧
    jGet (analyzeOutput (fun _ => Except.error []) (lit "I found no verdict."))
        kError = some (JValue.str (lit "No JSON found in output")) ∧
    jGet (analyzeOutput (fun _ => Except.error []) (lit "I found no verdict."))
        kRawOutput =
      some (JValue.str (stripFence (lit "I found no verdict."))) ∧
    (findSub fence (lit "I found no verdict.") = none →
      stripFence (lit "I found no verdict.") = lit "I found no verdict.") :=
  c2_no_brace_amended (fun _ => Except.error []) (lit "I found no verdict.")
    (by decide)
